import Mathlib

/-!
Verification of the gollama-export pipeline.

The Go sources (`main.go`, `app.go`, `utils.go`) are shallowly embedded:
Go strings (byte strings; all relevant data is ASCII) become `List Char`,
filesystem and process effects become explicit environment records of
boolean/optional-valued functions, and each stage of the per-model export
pipeline in `main` becomes a Lean function mirroring the source's control
flow.
-/

namespace GollamaExport

/-- Go `string` values are modelled as lists of characters.  Go compares
strings byte-wise; for well-formed UTF-8 this agrees with the
codepoint-wise lexicographic order on `List Char`. -/
abbrev Str := List Char

/-- Convenience: build a `Str` from a Lean string literal. -/
def str (s : String) : Str := s.toList

/-- Helper for `strings.TrimPrefix` and matching: if `pre` is a leading segment of
`s`, return the remainder, else `none`. -/
def stripPre : Str → Str → Option Str
  | [], s => some s
  | _ :: _, [] => none
  | p :: ps, c :: cs => if c = p then stripPre ps cs else none

/-- Go `strings.TrimPrefix(s, pre)` (`main.go:250`, `main.go:325`): drop `pre`
when it leads `s`, otherwise return `s` unchanged. -/
def trimPre (s pre : Str) : Str :=
  match stripPre pre s with
  | some r => r
  | none => s

/-- Does `s` start with `pre`?  (Used to implement `strings.Contains`.) -/
def hasPre (s pre : Str) : Bool :=
  (stripPre pre s).isSome

/-- Go `strings.Contains(s, sub)` (`main.go:229`): `sub` occurs as a
contiguous segment of `s`. -/
def containsSubstr (s sub : Str) : Bool :=
  match s with
  | [] => sub.isEmpty
  | _ :: rest => hasPre s sub || containsSubstr rest sub

/-- Go `strings.ReplaceAll` with single-character old/new strings
(`main.go:250`, `main.go:295` use `"/"`/`":"`), which is a character map. -/
def replaceAllChar (s : Str) (old new : Char) : Str :=
  s.map (fun c => if c = old then new else c)

/-- Everything of `s` before its first `':'` — `strings.Split(s, ":")[0]`. -/
def takeUntilColon : Str → Str
  | [] => []
  | c :: r => if c = ':' then [] else c :: takeUntilColon r

/-- Everything of `s` after its first `':'`, or `none` when `s` has no
colon — used for `strings.Contains(s, ":")` plus `strings.Split(s, ":")[1]`. -/
def dropThroughColon : Str → Option Str
  | [] => none
  | c :: r => if c = ':' then some r else dropThroughColon r

/-- The name/tag pair of a selector (`main.go:217-221`):
`strings.Split(modelFull, ":")[0]` and, when the selector contains a
colon, `strings.Split(modelFull, ":")[1]` (the segment between the first
and second colon); the tag is empty otherwise. -/
def selectorParts (modelFull : Str) : Str × Str :=
  (takeUntilColon modelFull,
   match dropThroughColon modelFull with
   | none => []
   | some r => takeUntilColon r)

/-- Go `filepath.Join(a, b)` for the shapes used by the program: `a` has no
trailing slash and `b` is a relative path (`Join` cleans the trailing
slash of literals such as `"manifests/registry.ollama.ai/library/"`). -/
def pathJoin (a b : Str) : Str := a ++ ('/' :: b)

/-- The manifests library root,
`filepath.Join(base, "manifests/registry.ollama.ai/library/")`
(`main.go:225`; `Join` drops the trailing slash). -/
def libraryRoot (base : Str) : Str :=
  pathJoin base (str "manifests/registry.ollama.ai/library")

/-! ### Digest extraction (`main.go:315-328`)

`regexp.MustCompile("sha256:[a-f0-9]+").FindAllString(content, -1)`
finds the leftmost, non-overlapping, maximal matches of the literal
`sha256:` followed by one or more lowercase-hex characters. -/

/-- A character matched by the regex character class `[a-f0-9]`. -/
def isHexChar (c : Char) : Bool :=
  ('a' ≤ c && c ≤ 'f') || ('0' ≤ c && c ≤ '9')

/-- Split off the maximal leading run of `[a-f0-9]` characters. -/
def hexSpan : Str → Str × Str
  | [] => ([], [])
  | c :: cs =>
    if isHexChar c then
      ((hexSpan cs).1.cons c, (hexSpan cs).2)
    else ([], c :: cs)

/-- The literal `sha256:` of the regex and of `strings.TrimPrefix`. -/
def shaTag : Str := str "sha256:"

/-- The scan of `re.FindAllString(content, -1)` for
`re = sha256:[a-f0-9]+` (`main.go:315-316`): scan left to right; at each
position, if the literal `sha256:` followed by at least one hex
character matches, emit the maximal match and resume after it, else
advance one character.  The recursion is made structural on a fuel
counter: every step consumes at least one input character, so fuel equal
to the input length (as supplied by `findAllSha256`) never runs out. -/
def findAllSha256Go (fuel : Nat) (l : Str) : List Str :=
  match fuel, l with
  | 0, _ => []
  | _ + 1, [] => []
  | fuel + 1, 's' :: 'h' :: 'a' :: '2' :: '5' :: '6' :: ':' :: rest =>
    if (hexSpan rest).1.isEmpty then
      findAllSha256Go fuel ('h' :: 'a' :: '2' :: '5' :: '6' :: ':' :: rest)
    else (shaTag ++ (hexSpan rest).1) :: findAllSha256Go fuel (hexSpan rest).2
  | fuel + 1, _ :: rest => findAllSha256Go fuel rest

/-- Go `re.FindAllString(content, -1)` for `re = sha256:[a-f0-9]+`. -/
def findAllSha256 (l : Str) : List Str := findAllSha256Go l.length l

/-- Go `strings.TrimPrefix(blob, "sha256:")` (`main.go:325`). -/
def trimSha (s : Str) : Str := trimPre s shaTag

/-- Go `unique` (`main.go:415-425`): keep the first occurrence of each
element, preserving order, using a seen-set (the Go `map`). -/
def uniqueGo (keys : List Str) : List Str → List Str
  | [] => []
  | e :: rest =>
    if e ∈ keys then uniqueGo keys rest
    else e :: uniqueGo (e :: keys) rest

/-- Go `unique(strSlice)` (`main.go:415`). -/
def unique (strSlice : List Str) : List Str := uniqueGo [] strSlice

/-- Go `sort.Strings` (`main.go:248`, `main.go:327`): sorts in ascending
lexicographic (byte-wise) order.  Since equal strings are
indistinguishable, the sorted permutation is unique as a list, so
insertion sort coincides with Go's unstable sort. -/
def sortStrings (l : List Str) : List Str :=
  List.insertionSort (fun a b => a ≤ b) l

/-- The blob list of the export step (`main.go:323-328`): regex matches,
`sha256:` prefix stripped, sorted, deduplicated. -/
def extractBlobs (content : Str) : List Str :=
  unique (sortStrings ((findAllSha256 content).map trimSha))

/-! ### The per-model export pipeline (`main.go:216-382`)

Filesystem and process effects are abstracted into an environment of
boolean/optional-valued functions: `os.Stat` success, `os.ReadDir`
results, `os.ReadFile` results, `copyFile` success, `os.MkdirAll`
success, and the set of directories visited by `filepath.Walk` under the
manifests library root. -/

/-- The filesystem environment one iteration of the model loop sees. -/
structure Env where
  /-- The directory paths visited by `filepath.Walk` under the library
  root (`main.go:225`), in visit order; `Walk` visits the root itself
  first, and every visited path extends the root. -/
  libDirs : List Str
  /-- `filepath.Walk` reported an error (`main.go:234`). -/
  walkErr : Bool
  /-- `os.ReadDir` (`main.go:258`): `none` on error, otherwise the
  entries' names, which `os.ReadDir` returns sorted by filename. -/
  readDir : Str → Option (List Str)
  /-- `os.Stat` success on a path (`main.go:274`, `282`, `357`). -/
  statOk : Str → Bool
  /-- `os.ReadFile` (`main.go:309`): `none` on error. -/
  readFile : Str → Option Str
  /-- `copyFile src dest` success (`main.go:302`, `359`). -/
  copyOk : Str → Str → Bool
  /-- `os.MkdirAll` success (`main.go:296`). -/
  mkdirOk : Str → Bool

/-- How one iteration of the model loop terminates. -/
inductive PerModelResult where
  /-- `errorExit` was called: the whole process terminates with status 1. -/
  | fatalExit
  /-- `continue` at `main.go:245`: no candidate directory matched. -/
  | skippedNoMatch
  /-- `continue` at `main.go:267`: empty tag directory, no tag to pick. -/
  | skippedNoTag
  /-- `continue` at `main.go:276`: model directory stat failed. -/
  | skippedDirMissing
  /-- `continue` at `main.go:289`: manifest file for the tag missing. -/
  | skippedTagMissing
  /-- `continue` at `main.go:304`: manifest copy failed. -/
  | skippedManifestCopy
  /-- `continue` at `main.go:312`: manifest read failed. -/
  | skippedManifestRead
  /-- `continue` at `main.go:320`: no blob references in the manifest. -/
  | skippedNoBlobs
  /-- The blob-copy loop ran to completion with these counters
  (`main.go:334-374`). -/
  | finished (copied failed : Nat)
deriving DecidableEq, Repr

/-- The observable outcome of one model-loop iteration: the control-flow
result, the destination paths successfully written (in order), and how
many times `copyFile` was invoked on the manifest. -/
structure ModelExec where
  result : PerModelResult
  writes : List Str
  manifestAttempts : Nat
  /-- The blob list the export step iterates over (`main.go:323-328`,
  `main.go:351`); empty when extraction was never reached. -/
  planBlobs : List Str
deriving DecidableEq, Repr

/-- The candidate directories of the locator (`main.go:224-233`): every
walked directory whose path contains the selector's name part. -/
def candidateDirs (env : Env) (nameProvided : Str) : List Str :=
  env.libDirs.filter (fun p => containsSubstr p nameProvided)

/-- The locator's choice (`main.go:238-249`): `none` when no candidate,
else sort all candidates and take the first. -/
def chooseDir (cands : List Str) : Option Str :=
  match sortStrings cands with
  | [] => none
  | d :: _ => some d

/-- Outcome of tag resolution (`main.go:256-269`). -/
inductive TagResult where
  | fatalReadDir
  | noTag
  | resolved (t : Str)
deriving DecidableEq, Repr

/-- Tag resolution (`main.go:256-269`): an explicit tag is used as is;
otherwise read the chosen directory and take the last entry
(`files[len(files)-1].Name()`), failing on an empty directory. -/
def resolveTag (env : Env) (modelDir tag0 : Str) : TagResult :=
  if tag0.isEmpty then
    match env.readDir modelDir with
    | none => .fatalReadDir
    | some files =>
      match files.getLast? with
      | none => .noTag
      | some t => .resolved t
  else .resolved tag0

/-- Source path of a blob, `filepath.Join(base, "blobs/sha256-"+blob)`
(`main.go:352`). -/
def blobSrcPath (base blob : Str) : Str :=
  pathJoin base (str "blobs/sha256-" ++ blob)

/-- Destination path of a blob,
`filepath.Join(outDir, "models/blobs/sha256-"+blob)` (`main.go:353`). -/
def blobDestPath (outDir blob : Str) : Str :=
  pathJoin outDir (str "models/blobs/sha256-" ++ blob)

/-- One iteration of the blob-copy loop (`main.go:351-371`): stat the
source; if present, attempt the copy and bump `copiedCount` on success or
`failedCount` on failure; if absent, bump `failedCount`. -/
def blobStep (env : Env) (base outDir : Str) (acc : Nat × Nat × List Str)
    (blob : Str) : Nat × Nat × List Str :=
  let bp := blobSrcPath base blob
  let dp := blobDestPath outDir blob
  if env.statOk bp then
    if env.copyOk bp dp then (acc.1 + 1, acc.2.1, acc.2.2 ++ [dp])
    else (acc.1, acc.2.1 + 1, acc.2.2)
  else (acc.1, acc.2.1 + 1, acc.2.2)

/-- The blob-copy loop (`main.go:334-371`), returning
`(copiedCount, failedCount, successful destination writes)`. -/
def blobLoop (env : Env) (base outDir : Str) (blobs : List Str) :
    Nat × Nat × List Str :=
  blobs.foldl (blobStep env base outDir) (0, 0, [])

/-- Destination directory of a model's manifest (`main.go:295-296`). -/
def manifestDestDir (outDir modelName : Str) : Str :=
  pathJoin (pathJoin outDir (str "models/manifests/registry.ollama.ai/library"))
    (replaceAllChar modelName ':' '/')

/-- One iteration of the model loop (`main.go:216-382`), mirroring the
source's control flow stage by stage. -/
def processModel (env : Env) (base outDir : Str) (modelFull : Str) : ModelExec :=
  let nameProvided := (selectorParts modelFull).1
  let tag0 := (selectorParts modelFull).2
  if env.walkErr then ⟨.fatalExit, [], 0, []⟩ else
  match chooseDir (candidateDirs env nameProvided) with
  | none => ⟨.skippedNoMatch, [], 0, []⟩
  | some modelDir =>
    let modelName := replaceAllChar (trimPre modelDir (libraryRoot base)) '/' ':'
    match resolveTag env modelDir tag0 with
    | .fatalReadDir => ⟨.fatalExit, [], 0, []⟩
    | .noTag => ⟨.skippedNoTag, [], 0, []⟩
    | .resolved tag =>
      if ¬ env.statOk modelDir then ⟨.skippedDirMissing, [], 0, []⟩ else
      if ¬ env.statOk (pathJoin modelDir tag) then ⟨.skippedTagMissing, [], 0, []⟩ else
      let destDir := manifestDestDir outDir modelName
      if ¬ env.mkdirOk destDir then ⟨.fatalExit, [], 0, []⟩ else
      let manifestSrc := pathJoin modelDir tag
      let manifestDest := pathJoin destDir tag
      if ¬ env.copyOk manifestSrc manifestDest then ⟨.skippedManifestCopy, [], 1, []⟩ else
      match env.readFile manifestSrc with
      | none => ⟨.skippedManifestRead, [manifestDest], 1, []⟩
      | some content =>
        if (findAllSha256 content).isEmpty then ⟨.skippedNoBlobs, [manifestDest], 1, []⟩ else
        let blobs := extractBlobs content
        let r := blobLoop env base outDir blobs
        ⟨.finished r.1 r.2.1, manifestDest :: r.2.2, 1, blobs⟩

/-- The model loop (`main.go:216-382`): process selectors in order;
`errorExit` anywhere aborts the process (`none`), otherwise collect the
per-model outcomes. -/
def runModels (env : Env) (base outDir : Str) : List Str → Option (List ModelExec)
  | [] => some []
  | m :: rest =>
    let r := processModel env base outDir m
    if r.result = PerModelResult.fatalExit then none
    else
      match runModels env base outDir rest with
      | none => none
      | some rs => some (r :: rs)

/-- Exit status of the process: `ok` is status 0, `err` is `os.Exit(1)`
via `errorExit` (`main.go:40-43`). -/
inductive ExitCode where
  | ok
  | err
deriving DecidableEq, Repr

/-- The whole-run environment: the preliminary checks of `main`
(`main.go:181-198`), model enumeration when no selectors are given
(`main.go:202-213`), the per-model environment, and the final `tar`
invocation (`main.go:398-403`). -/
structure GEnv where
  env : Env
  /-- `os.Stat(base + "/manifests")` succeeds (`main.go:181`). -/
  statManifestsDir : Bool
  /-- `os.Stat(base + "/blobs")` succeeds (`main.go:184`). -/
  statBlobsDir : Bool
  /-- `os.MkdirAll` of the destination manifests tree (`main.go:192`). -/
  mkdirManifests : Bool
  /-- `os.MkdirAll` of the destination blobs tree (`main.go:195`). -/
  mkdirBlobs : Bool
  /-- `getOllamaModelsWithTags()` (`main.go:208`): `none` on error. -/
  listModels : Option (List Str)
  /-- The final `tar -czvf` command succeeds (`main.go:398-403`). -/
  tarOk : Bool

/-- Function `main` (`main.go:176-413`): preliminary checks, selector
determination, the model loop, and packaging.  Returns the exit code and
the destination paths written (the content of the packaged tree); a
fatal exit produces no archive. -/
def mainRun (g : GEnv) (base outDir : Str) (args : List Str) :
    ExitCode × List Str :=
  if ¬ g.statManifestsDir then (.err, []) else
  if ¬ g.statBlobsDir then (.err, []) else
  if ¬ g.mkdirManifests then (.err, []) else
  if ¬ g.mkdirBlobs then (.err, []) else
  match (if args.isEmpty then g.listModels else some args) with
  | none => (.err, [])
  | some models =>
    match runModels g.env base outDir models with
    | none => (.err, [])
    | some rs =>
      if ¬ g.tarOk then (.err, [])
      else (.ok, (rs.map ModelExec.writes).flatten)

/-! ### The `App.Run` pipeline (`app.go:34-131`)

`App.Run` parses each manifest as JSON (`json.Unmarshal` into
`map[string]interface{}`), descends into `layers`, and reads each
entry's `digest` via unchecked Go type assertions. -/

/-- JSON values, as produced by `json.Unmarshal` into `interface{}`. -/
inductive Jval where
  | jnull
  | jbool (b : Bool)
  | jnum (n : Int)
  | jstr (s : Str)
  | jarr (xs : List Jval)
  | jobj (fields : List (Str × Jval))

/-- Field lookup in an unmarshalled JSON object. -/
def lookupField : List (Str × Jval) → Str → Option Jval
  | [], _ => none
  | (k, v) :: rest, key => if k = key then some v else lookupField rest key

/-- The digest-collection loop of `App.Run` (`app.go:96-102`):
`layer.(map[string]interface{})`, `layerMap["digest"].(string)` and
`strings.Split(digest, ":")[1]` are unchecked type assertions / index
accesses, so a non-object layer, a missing or non-string `digest`, or a
digest without a colon panics (`none`). -/
def extractLayerHashes : List Jval → Option (List Str)
  | [] => some []
  | Jval.jobj fs :: rest =>
    match lookupField fs (str "digest") with
    | some (Jval.jstr d) =>
      match dropThroughColon d with
      | none => none
      | some r =>
        match extractLayerHashes rest with
        | none => none
        | some hs => some (takeUntilColon r :: hs)
    | _ => none
  | _ :: _ => none

/-- Effect environment for `App.Run`. -/
structure AppEnv where
  /-- `os.Stat` success on the manifest path (`app.go:81`). -/
  statOk : Str → Bool
  /-- `os.ReadFile` (`app.go:86`): `none` on error. -/
  readFile : Str → Option Str
  /-- `json.Unmarshal` into `map[string]interface{}` (`app.go:92`):
  `none` on malformed JSON or a non-object top level. -/
  unmarshal : Str → Option (List (Str × Jval))
  /-- `createTarGz` over the collected files succeeds (`app.go:114`). -/
  tarOk : Bool

/-- How one iteration of the `App.Run` model loop terminates. -/
inductive AppModelOutcome where
  /-- `errorExit` was called: the process terminates with status 1. -/
  | fatalExit
  /-- A failed Go type assertion or out-of-range index: runtime panic. -/
  | panicked
  /-- `continue` at `app.go:83`: manifest not found, model skipped. -/
  | skippedNotFound
  /-- The model's archive was produced, from these blob hashes. -/
  | exported (hashes : List Str)
deriving DecidableEq, Repr

/-- The manifest path `App.Run` builds for a selector (`app.go:72-79`):
the name part, and the tag part defaulting to `"latest"`. -/
def appManifestPath (base modelFull : Str) : Str :=
  pathJoin (pathJoin (libraryRoot base) (selectorParts modelFull).1)
    (match dropThroughColon modelFull with
     | none => str "latest"
     | some r => takeUntilColon r)

/-- One iteration of the `App.Run` model loop (`app.go:65-130`):
manifest stat, read (`errorExit` on failure), `json.Unmarshal`
(`errorExit` on failure), the `layers` type assertion (panic when
missing or not an array), hash collection, archive creation
(`errorExit` on failure). -/
def appProcessModel (a : AppEnv) (base : Str) (modelFull : Str) :
    AppModelOutcome :=
  let manifestPath := appManifestPath base modelFull
  if ¬ a.statOk manifestPath then .skippedNotFound else
  match a.readFile manifestPath with
  | none => .fatalExit
  | some bytes =>
    match a.unmarshal bytes with
    | none => .fatalExit
    | some fields =>
      match lookupField fields (str "layers") with
      | some (Jval.jarr layers) =>
        match extractLayerHashes layers with
        | none => .panicked
        | some hashes => if a.tarOk then .exported hashes else .fatalExit
      | _ => .panicked

/-- The `App.Run` model loop (`app.go:65`): a fatal exit or a panic
aborts the process (`none`); otherwise outcomes are collected in order. -/
def appRunModels (a : AppEnv) (base : Str) : List Str → Option (List AppModelOutcome)
  | [] => some []
  | m :: rest =>
    let r := appProcessModel a base m
    if r = AppModelOutcome.fatalExit ∨ r = AppModelOutcome.panicked then none
    else
      match appRunModels a base rest with
      | none => none
      | some rs => some (r :: rs)

/-! ### The blob-copy loop over a map filesystem (`main.go:351-371`)

For the idempotence analysis the blob loop is interpreted over an
explicit filesystem: a map from path to content.  `os.Stat` and the
`os.Open` inside `copyFile` (`utils.go:144-162`) succeed exactly when
the source path is present; `os.Create` truncates/overwrites and the
write succeeds (the destination tree was created by `main` and is
writable). -/

/-- Overwrite path `p` with content `c` (the `os.Create` + `io.Copy` of
`copyFile`). -/
def updateFS (fs : Str → Option Str) (p c : Str) : Str → Option Str :=
  fun q => if q = p then some c else fs q

/-- One iteration of the blob loop over the map filesystem: stat the
source blob; if present copy its content to the destination path
(overwriting) and bump `copiedCount`, else bump `failedCount`. -/
def copyStepFS (srcFS : Str → Option Str) (base outDir : Str)
    (st : (Str → Option Str) × Nat × Nat) (blob : Str) :
    (Str → Option Str) × Nat × Nat :=
  match srcFS (blobSrcPath base blob) with
  | some content => (updateFS st.1 (blobDestPath outDir blob) content, st.2.1 + 1, st.2.2)
  | none => (st.1, st.2.1, st.2.2 + 1)

/-- The blob loop (`main.go:334-371`) over the map filesystem: fold the
copy step over the plan's blobs, starting from destination state
`destFS` and zeroed counters. -/
def execBlobsFS (srcFS destFS : Str → Option Str) (base outDir : Str)
    (blobs : List Str) : (Str → Option Str) × Nat × Nat :=
  blobs.foldl (copyStepFS srcFS base outDir) (destFS, 0, 0)

/-! ## Supporting lemmas -/

theorem uniqueGo_sublist (keys : List Str) (l : List Str) :
    (uniqueGo keys l).Sublist l := by
  induction l generalizing keys with
  | nil => simp [uniqueGo]
  | cons e rest ih =>
    by_cases h : e ∈ keys
    · simp only [uniqueGo, if_pos h]
      exact List.Sublist.cons e (ih keys)
    · simp only [uniqueGo, if_neg h]
      exact List.Sublist.cons₂ e (ih (e :: keys))

theorem mem_uniqueGo {a : Str} (keys : List Str) (l : List Str) :
    a ∈ uniqueGo keys l ↔ a ∈ l ∧ a ∉ keys := by
  induction l generalizing keys with
  | nil => simp [uniqueGo]
  | cons e rest ih =>
    by_cases h : e ∈ keys
    · simp only [uniqueGo, if_pos h, ih, List.mem_cons]
      constructor
      · rintro ⟨hm, hk⟩
        exact ⟨Or.inr hm, hk⟩
      · rintro ⟨hm | hm, hk⟩
        · exact absurd (hm ▸ h) hk
        · exact ⟨hm, hk⟩
    · simp only [uniqueGo, if_neg h, List.mem_cons, ih]
      constructor
      · rintro (rfl | ⟨hm, hk⟩)
        · exact ⟨Or.inl rfl, h⟩
        · exact ⟨Or.inr hm, fun hb => hk (Or.inr hb)⟩
      · rintro ⟨hm | hm, hk⟩
        · exact Or.inl hm
        · by_cases hae : a = e
          · exact Or.inl hae
          · exact Or.inr ⟨hm, by simp [hae, hk]⟩

theorem uniqueGo_nodup (keys : List Str) (l : List Str) :
    (uniqueGo keys l).Nodup := by
  induction l generalizing keys with
  | nil => simp [uniqueGo]
  | cons e rest ih =>
    by_cases h : e ∈ keys
    · simp only [uniqueGo, if_pos h]
      exact ih keys
    · simp only [uniqueGo, if_neg h]
      refine List.Nodup.cons ?_ (ih (e :: keys))
      intro hmem
      exact ((mem_uniqueGo (e :: keys) rest).mp hmem).2 (List.mem_cons_self e keys)

theorem unique_nodup (l : List Str) : (unique l).Nodup :=
  uniqueGo_nodup [] l

theorem mem_unique {a : Str} (l : List Str) : a ∈ unique l ↔ a ∈ l := by
  simp [unique, mem_uniqueGo]

theorem unique_toFinset (l : List Str) : (unique l).toFinset = l.toFinset := by
  ext a
  simp [mem_unique]

theorem unique_length (l : List Str) : (unique l).length = l.toFinset.card := by
  rw [← unique_toFinset, List.toFinset_card_of_nodup (unique_nodup l)]

theorem unique_sorted {l : List Str} (h : l.Sorted (fun a b => a ≤ b)) :
    (unique l).Sorted (fun a b => a ≤ b) :=
  List.Pairwise.sublist (uniqueGo_sublist [] l) h

theorem sortStrings_perm (l : List Str) : (sortStrings l).Perm l :=
  List.perm_insertionSort (fun a b => a ≤ b) l

theorem sortStrings_sorted (l : List Str) :
    (sortStrings l).Sorted (fun a b => a ≤ b) :=
  List.sorted_insertionSort (fun a b => a ≤ b) l

/-! ## Claims -/

/-- Claim C1: For every manifest byte string, the blob list built by
`main.go:315-328` (regex scan for `sha256:<hex>`, prefix stripping,
sorting, deduplication) has exactly as many entries as there are unique
digests among the matches, is sorted in ascending lexicographic order,
and contains no duplicates — even when the manifest text repeats a
digest reference. -/
theorem claim_C1 (content : Str) :
    (extractBlobs content).length
        = ((findAllSha256 content).map trimSha).toFinset.card
    ∧ (extractBlobs content).Sorted (fun a b => a ≤ b)
    ∧ (extractBlobs content).Nodup := by
  unfold extractBlobs
  refine ⟨?_, unique_sorted (sortStrings_sorted _), unique_nodup _⟩
  rw [unique_length, List.toFinset_eq_of_perm _ _ (sortStrings_perm _)]

theorem blobLoop_counts_aux (env : Env) (base outDir : Str) (blobs : List Str)
    (acc : Nat × Nat × List Str) :
    (blobs.foldl (blobStep env base outDir) acc).1
        + (blobs.foldl (blobStep env base outDir) acc).2.1
      = acc.1 + acc.2.1 + blobs.length := by
  induction blobs generalizing acc with
  | nil => simp
  | cons b rest ih =>
    simp only [List.foldl_cons, List.length_cons]
    rw [ih]
    unfold blobStep
    dsimp only
    split
    · split
      · dsimp only
        omega
      · dsimp only
        omega
    · dsimp only
      omega

theorem blobLoop_counts (env : Env) (base outDir : Str) (blobs : List Str) :
    (blobLoop env base outDir blobs).1 + (blobLoop env base outDir blobs).2.1
      = blobs.length := by
  unfold blobLoop
  rw [blobLoop_counts_aux]
  simp

/-- Claim C2: Whenever the blob-copy loop of a model completes
(`main.go:334-374`), `copiedCount + failedCount` equals the number of
blobs of the plan — each blob increments exactly one of the two
counters — and `copyFile` was invoked on the manifest exactly once for
that model. -/
theorem claim_C2 (env : Env) (base outDir modelFull : Str) (c f : Nat)
    (h : (processModel env base outDir modelFull).result
        = PerModelResult.finished c f) :
    c + f = (processModel env base outDir modelFull).planBlobs.length
    ∧ (processModel env base outDir modelFull).manifestAttempts = 1 := by
  revert h
  unfold processModel
  dsimp only
  split
  · intro h
    cases h
  · split
    · intro h
      cases h
    · split
      · intro h
        cases h
      · intro h
        cases h
      · split
        · intro h
          cases h
        · split
          · intro h
            cases h
          · split
            · intro h
              cases h
            · split
              · intro h
                cases h
              · split
                · intro h
                  cases h
                · split
                  · intro h
                    cases h
                  · intro h
                    obtain ⟨rfl, rfl⟩ := PerModelResult.finished.injEq .. ▸ h
                    exact ⟨blobLoop_counts _ _ _ _, rfl⟩

/-- Environment witnessing `claim_C2`: one model directory, one tag, a
manifest with one (repeated) digest reference, all I/O succeeding. -/
def envC2 : Env :=
  { libDirs := [str "lib/demo"]
    walkErr := false
    readDir := fun _ => some [str "latest"]
    statOk := fun _ => true
    readFile := fun _ => some (str "sha256:0a1 sha256:0a1")
    copyOk := fun _ _ => true
    mkdirOk := fun _ => true }

theorem claim_C2_witness :
    (processModel envC2 (str "b") (str "o") (str "demo")).result
        = PerModelResult.finished 1 0
    ∧ (1 + 0 = (processModel envC2 (str "b") (str "o") (str "demo")).planBlobs.length
      ∧ (processModel envC2 (str "b") (str "o") (str "demo")).manifestAttempts = 1) :=
  ⟨by decide, claim_C2 envC2 (str "b") (str "o") (str "demo") 1 0 (by decide)⟩

theorem chooseDir_min (cands : List Str) (hne : cands ≠ []) :
    ∃ d, chooseDir cands = some d ∧ d ∈ cands ∧ ∀ x ∈ cands, d ≤ x := by
  unfold chooseDir
  have hperm := sortStrings_perm cands
  have hsort := sortStrings_sorted cands
  match hs : sortStrings cands with
  | [] =>
    rw [hs] at hperm
    exact absurd hperm.nil_eq.symm hne
  | d :: ds =>
    rw [hs] at hperm hsort
    refine ⟨d, rfl, hperm.mem_iff.mp (List.mem_cons_self d ds), ?_⟩
    intro x hx
    rcases List.mem_cons.mp (hperm.mem_iff.mpr hx) with heq | htl
    · exact le_of_eq heq.symm
    · exact List.rel_of_sorted_cons hsort x htl

/-- Claim C5: For every selector name matched by more than one directory
under the manifests root, the locator (`main.go:224-249`) collects all
matching candidate directories, sorts them, and deterministically picks
the lexicographically-least one. -/
theorem claim_C5 (env : Env) (name : Str)
    (h2 : 2 ≤ (candidateDirs env name).length) :
    (∀ p ∈ env.libDirs, containsSubstr p name = true → p ∈ candidateDirs env name)
    ∧ ∃ d, chooseDir (candidateDirs env name) = some d
        ∧ d ∈ candidateDirs env name
        ∧ ∀ x ∈ candidateDirs env name, d ≤ x := by
  constructor
  · intro p hp hc
    exact List.mem_filter.mpr ⟨hp, hc⟩
  · apply chooseDir_min
    intro hnil
    rw [hnil] at h2
    simp at h2

/-- Environment witnessing `claim_C5`: two directories match the name. -/
def envC5 : Env :=
  { libDirs := [str "lib/foo-b", str "lib/foo-a"]
    walkErr := false
    readDir := fun _ => none
    statOk := fun _ => false
    readFile := fun _ => none
    copyOk := fun _ _ => false
    mkdirOk := fun _ => false }

theorem claim_C5_witness :
    2 ≤ (candidateDirs envC5 (str "foo")).length
    ∧ ((∀ p ∈ envC5.libDirs, containsSubstr p (str "foo") = true →
          p ∈ candidateDirs envC5 (str "foo"))
      ∧ ∃ d, chooseDir (candidateDirs envC5 (str "foo")) = some d
          ∧ d ∈ candidateDirs envC5 (str "foo")
          ∧ ∀ x ∈ candidateDirs envC5 (str "foo"), d ≤ x) :=
  ⟨by decide, claim_C5 envC5 (str "foo") (by decide)⟩

theorem sorted_le_getLast {l : List Str} (hs : l.Sorted (fun a b => a ≤ b))
    (hne : l ≠ []) : ∀ x ∈ l, x ≤ l.getLast hne := by
  induction l with
  | nil => exact absurd rfl hne
  | cons a t ih =>
    intro x hx
    cases t with
    | nil =>
      rcases List.mem_singleton.mp hx with rfl
      exact le_refl x
    | cons b t2 =>
      rw [List.getLast_cons (List.cons_ne_nil b t2)]
      rcases List.mem_cons.mp hx with rfl | htl
      · have hmem : (b :: t2).getLast (List.cons_ne_nil b t2) ∈ b :: t2 :=
          List.getLast_mem _
        exact List.rel_of_sorted_cons hs _ hmem
      · exact ih hs.of_cons (List.cons_ne_nil b t2) x htl

/-- Claim C6: Tag resolution (`main.go:256-269`): for a selector without a
tag whose matched directory is non-empty, the resolved tag is the last
entry of the (sorted, per the `os.ReadDir` contract) entry list, which
is the lexicographically-greatest entry name; for a selector with an
explicit tag, the resolved tag is exactly that tag. -/
theorem claim_C6 (env : Env) (modelDir : Str) (files : List Str)
    (hrd : env.readDir modelDir = some files)
    (hsorted : files.Sorted (fun a b => a ≤ b)) (hne : files ≠ []) :
    (resolveTag env modelDir [] = TagResult.resolved (files.getLast hne)
      ∧ files.getLast hne ∈ files
      ∧ ∀ x ∈ files, x ≤ files.getLast hne)
    ∧ ∀ tag0 : Str, tag0 ≠ [] → resolveTag env modelDir tag0 = TagResult.resolved tag0 := by
  constructor
  · refine ⟨?_, List.getLast_mem hne, sorted_le_getLast hsorted hne⟩
    unfold resolveTag
    simp only [List.isEmpty_nil, if_true, hrd]
    rw [List.getLast?_eq_getLast_of_ne_nil hne]
  · intro tag0 h0
    unfold resolveTag
    cases tag0 with
    | nil => exact absurd rfl h0
    | cons c r => simp

/-- Environment witnessing `claim_C6`: the spec's example, tag
directories `["v1","v2"]`. -/
def envC6 : Env :=
  { libDirs := []
    walkErr := false
    readDir := fun _ => some [str "v1", str "v2"]
    statOk := fun _ => false
    readFile := fun _ => none
    copyOk := fun _ _ => false
    mkdirOk := fun _ => false }

theorem claim_C6_witness :
    (envC6.readDir (str "lib/foo") = some [str "v1", str "v2"]
      ∧ ([str "v1", str "v2"] : List Str).Sorted (fun a b => a ≤ b)
      ∧ ([str "v1", str "v2"] : List Str) ≠ [])
    ∧ ((resolveTag envC6 (str "lib/foo") []
          = TagResult.resolved (([str "v1", str "v2"] : List Str).getLast (by decide))
        ∧ ([str "v1", str "v2"] : List Str).getLast (by decide) ∈ [str "v1", str "v2"]
        ∧ ∀ x ∈ ([str "v1", str "v2"] : List Str),
            x ≤ ([str "v1", str "v2"] : List Str).getLast (by decide))
      ∧ ∀ tag0 : Str, tag0 ≠ [] →
          resolveTag envC6 (str "lib/foo") tag0 = TagResult.resolved tag0) :=
  ⟨⟨rfl, by decide, by decide⟩,
    claim_C6 envC6 (str "lib/foo") [str "v1", str "v2"] rfl (by decide) (by decide)⟩

theorem lex_append_cons (l : List Char) (c : Char) (ts : List Char) :
    List.Lex (fun a b : Char => a < b) l (l ++ c :: ts) := by
  induction l with
  | nil => exact List.Lex.nil
  | cons a as ih => exact List.Lex.cons ih

theorem le_append_self (l t : List Char) : l ≤ l ++ t := by
  cases t with
  | nil => simp
  | cons c ts => exact le_of_lt (lex_append_cons l c ts)

theorem containsSubstr_nil (s : Str) : containsSubstr s [] = true := by
  cases s <;> simp [containsSubstr, hasPre, stripPre]

/-- Claim C9: For a selector whose name part is empty, the substring match
of the locator (`main.go:229`) accepts every walked directory — so it
never reports "no model found" when the library root exists — and the
deterministic first-of-sorted choice is the library root itself, since
the root is a leading segment, hence the lexicographic minimum, of every
walked path. -/
theorem claim_C9 (env : Env) (base modelFull : Str) (rest : List Str)
    (hname : (selectorParts modelFull).1 = [])
    (hdirs : env.libDirs = libraryRoot base :: rest)
    (hext : ∀ d ∈ rest, ∃ t : Str, d = libraryRoot base ++ t) :
    candidateDirs env (selectorParts modelFull).1 = env.libDirs
    ∧ chooseDir (candidateDirs env (selectorParts modelFull).1)
        = some (libraryRoot base) := by
  rw [hname]
  have hall : candidateDirs env [] = env.libDirs := by
    unfold candidateDirs
    apply List.filter_eq_self.mpr
    intro p _
    exact containsSubstr_nil p
  refine ⟨hall, ?_⟩
  rw [hall, hdirs]
  obtain ⟨d, hcd, hdmem, hdmin⟩ :=
    chooseDir_min (libraryRoot base :: rest) (List.cons_ne_nil _ _)
  have hle_d : libraryRoot base ≤ d := by
    rcases List.mem_cons.mp hdmem with rfl | hxr
    · exact le_refl _
    · obtain ⟨t, rfl⟩ := hext d hxr
      exact le_append_self _ t
  have hd_le : d ≤ libraryRoot base := hdmin _ (List.mem_cons_self _ _)
  have hde : d = libraryRoot base := le_antisymm hd_le hle_d
  exact hde ▸ hcd

/-- Environment witnessing `claim_C9`: the walked tree is the library
root plus one model directory below it. -/
def envC9 : Env :=
  { libDirs := [libraryRoot (str "b"), libraryRoot (str "b") ++ str "/m1"]
    walkErr := false
    readDir := fun _ => none
    statOk := fun _ => false
    readFile := fun _ => none
    copyOk := fun _ _ => false
    mkdirOk := fun _ => false }

theorem claim_C9_witness :
    ((selectorParts (str "")).1 = ([] : Str)
      ∧ envC9.libDirs = libraryRoot (str "b") :: [libraryRoot (str "b") ++ str "/m1"])
    ∧ (candidateDirs envC9 (selectorParts (str "")).1 = envC9.libDirs
      ∧ chooseDir (candidateDirs envC9 (selectorParts (str "")).1)
          = some (libraryRoot (str "b"))) :=
  ⟨⟨rfl, rfl⟩,
    claim_C9 envC9 (str "b") (str "") [libraryRoot (str "b") ++ str "/m1"] rfl rfl
      (fun d hd => ⟨str "/m1", by rw [List.mem_singleton.mp hd]⟩)⟩

/-- The destination path of a model's manifest file (`main.go:302`),
as computed from the locator's chosen directory. -/
def manifestDestOf (base outDir modelDir tag : Str) : Str :=
  pathJoin (manifestDestDir outDir
    (replaceAllChar (trimPre modelDir (libraryRoot base)) '/' ':')) tag

/-- Claim C7: When the manifest copy of a model fails (`main.go:300-305`),
every remaining export step for that model is skipped: nothing is
written for it (no digest extraction, no blob copy), the model's
outcome records the failed manifest copy, and the loop proceeds to the
next selector. -/
theorem claim_C7 (env : Env) (base outDir modelFull modelDir tag : Str)
    (hwalk : env.walkErr = false)
    (hchoose : chooseDir (candidateDirs env (selectorParts modelFull).1) = some modelDir)
    (htag : resolveTag env modelDir (selectorParts modelFull).2 = TagResult.resolved tag)
    (hstat1 : env.statOk modelDir = true)
    (hstat2 : env.statOk (pathJoin modelDir tag) = true)
    (hmk : env.mkdirOk (manifestDestDir outDir
        (replaceAllChar (trimPre modelDir (libraryRoot base)) '/' ':')) = true)
    (hcopy : env.copyOk (pathJoin modelDir tag)
        (manifestDestOf base outDir modelDir tag) = false) :
    processModel env base outDir modelFull
      = ⟨PerModelResult.skippedManifestCopy, [], 1, []⟩
    ∧ ∀ (rest : List Str) (rs : List ModelExec),
        runModels env base outDir rest = some rs →
        runModels env base outDir (modelFull :: rest)
          = some (⟨PerModelResult.skippedManifestCopy, [], 1, []⟩ :: rs) := by
  have hpm : processModel env base outDir modelFull
      = ⟨PerModelResult.skippedManifestCopy, [], 1, []⟩ := by
    simp only [manifestDestOf] at hcopy
    simp [processModel, hwalk, hchoose, htag, hstat1, hstat2, hmk, hcopy]
  refine ⟨hpm, ?_⟩
  intro rest rs hrs
  simp [runModels, hpm, hrs]

/-- Environment witnessing `claim_C7`: everything up to the manifest
copy succeeds, the manifest copy itself fails. -/
def envC7 : Env :=
  { libDirs := [str "lib/demo"]
    walkErr := false
    readDir := fun _ => some [str "latest"]
    statOk := fun _ => true
    readFile := fun _ => none
    copyOk := fun _ _ => false
    mkdirOk := fun _ => true }

theorem claim_C7_witness :
    envC7.copyOk (pathJoin (str "lib/demo") (str "latest"))
        (manifestDestOf (str "b") (str "o") (str "lib/demo") (str "latest")) = false
    ∧ (processModel envC7 (str "b") (str "o") (str "demo")
        = ⟨PerModelResult.skippedManifestCopy, [], 1, []⟩
      ∧ ∀ (rest : List Str) (rs : List ModelExec),
          runModels envC7 (str "b") (str "o") rest = some rs →
          runModels envC7 (str "b") (str "o") (str "demo" :: rest)
            = some (⟨PerModelResult.skippedManifestCopy, [], 1, []⟩ :: rs)) :=
  ⟨by decide,
    claim_C7 envC7 (str "b") (str "o") (str "demo") (str "lib/demo") (str "latest")
      (by decide) (by decide) (by decide) (by decide) (by decide) (by decide) (by decide)⟩

/-- Claim C10: The manifest is copied (`main.go:302`) before digest
extraction is attempted (`main.go:309-321`): for a model whose manifest
yields zero digest references, the already-copied manifest stays among
the destination writes, is part of the final packaged tree, and the
per-model failure neither rolls anything back nor prevents a successful
exit. -/
theorem claim_C10 (g : GEnv) (base outDir modelFull modelDir tag content : Str)
    (rest : List Str) (rs : List ModelExec)
    (hwalk : g.env.walkErr = false)
    (hchoose : chooseDir (candidateDirs g.env (selectorParts modelFull).1) = some modelDir)
    (htag : resolveTag g.env modelDir (selectorParts modelFull).2 = TagResult.resolved tag)
    (hstat1 : g.env.statOk modelDir = true)
    (hstat2 : g.env.statOk (pathJoin modelDir tag) = true)
    (hmk : g.env.mkdirOk (manifestDestDir outDir
        (replaceAllChar (trimPre modelDir (libraryRoot base)) '/' ':')) = true)
    (hcopy : g.env.copyOk (pathJoin modelDir tag)
        (manifestDestOf base outDir modelDir tag) = true)
    (hread : g.env.readFile (pathJoin modelDir tag) = some content)
    (hnone : findAllSha256 content = [])
    (h1 : g.statManifestsDir = true) (h2 : g.statBlobsDir = true)
    (h3 : g.mkdirManifests = true) (h4 : g.mkdirBlobs = true) (h5 : g.tarOk = true)
    (hrest : runModels g.env base outDir rest = some rs) :
    processModel g.env base outDir modelFull
      = ⟨PerModelResult.skippedNoBlobs, [manifestDestOf base outDir modelDir tag], 1, []⟩
    ∧ manifestDestOf base outDir modelDir tag
        ∈ (mainRun g base outDir (modelFull :: rest)).2
    ∧ (mainRun g base outDir (modelFull :: rest)).1 = ExitCode.ok := by
  have hpm : processModel g.env base outDir modelFull
      = ⟨PerModelResult.skippedNoBlobs, [manifestDestOf base outDir modelDir tag], 1, []⟩ := by
    simp only [manifestDestOf] at hcopy ⊢
    simp [processModel, hwalk, hchoose, htag, hstat1, hstat2, hmk, hcopy, hread, hnone]
  have hrun : runModels g.env base outDir (modelFull :: rest)
      = some (⟨PerModelResult.skippedNoBlobs,
          [manifestDestOf base outDir modelDir tag], 1, []⟩ :: rs) := by
    simp [runModels, hpm, hrest]
  refine ⟨hpm, ?_, ?_⟩
  · simp [mainRun, h1, h2, h3, h4, h5, hrun]
  · simp [mainRun, h1, h2, h3, h4, h5, hrun]

/-- Environment witnessing `claim_C10`: the manifest copies fine but
contains no digest references. -/
def envC10 : Env :=
  { libDirs := [str "lib/demo"]
    walkErr := false
    readDir := fun _ => some [str "latest"]
    statOk := fun _ => true
    readFile := fun _ => some (str "no digest references here")
    copyOk := fun _ _ => true
    mkdirOk := fun _ => true }

/-- Whole-run environment witnessing `claim_C10`. -/
def genvC10 : GEnv :=
  { env := envC10
    statManifestsDir := true
    statBlobsDir := true
    mkdirManifests := true
    mkdirBlobs := true
    listModels := none
    tarOk := true }

theorem claim_C10_witness :
    findAllSha256 (str "no digest references here") = []
    ∧ (processModel genvC10.env (str "b") (str "o") (str "demo")
        = ⟨PerModelResult.skippedNoBlobs,
            [manifestDestOf (str "b") (str "o") (str "lib/demo") (str "latest")], 1, []⟩
      ∧ manifestDestOf (str "b") (str "o") (str "lib/demo") (str "latest")
          ∈ (mainRun genvC10 (str "b") (str "o") [str "demo"]).2
      ∧ (mainRun genvC10 (str "b") (str "o") [str "demo"]).1 = ExitCode.ok) :=
  ⟨by decide,
    claim_C10 genvC10 (str "b") (str "o") (str "demo") (str "lib/demo") (str "latest")
      (str "no digest references here") [] []
      (by decide) (by decide) (by decide) (by decide) (by decide) (by decide) (by decide)
      (by decide) (by decide) rfl rfl rfl rfl rfl rfl⟩

/-- App environment exhibiting the C4 counterexample: the manifest
exists and reads fine but is not valid JSON. -/
def appEnvC4 : AppEnv :=
  { statOk := fun _ => true
    readFile := fun _ => some (str "plainly not json")
    unmarshal := fun _ => none
    tarOk := true }

/-- Claim C4 counterexample: The claim says a manifest parse failure
"never terminates the process" and "the loop continues to the next
selector"; but in `App.Run` (`app.go:92-94`) a malformed top-level JSON
calls `errorExit`, terminating the whole process, so the second selector
of the batch is never processed. -/
theorem claim_C4_counterexample :
    (appEnvC4.unmarshal (str "plainly not json")).isNone = true
    ∧ appProcessModel appEnvC4 (str "b") (str "m1") = AppModelOutcome.fatalExit
    ∧ appRunModels appEnvC4 (str "b") [str "m1", str "m2"] = none := by
  refine ⟨rfl, by decide, by decide⟩

/-- Claim C4, amended: In the regex pipeline of `main.go`, a manifest
that yields zero digests only skips that model and the loop continues
to the next selector; but in `App.Run` (`app.go:86-102`), a malformed
top-level manifest JSON calls `errorExit` and terminates the whole
process, and a missing (or non-array) `layers` field panics — in both
cases the rest of the batch is never processed. -/
theorem claim_C4_amended
    (env : Env) (base outDir modelFull modelDir tag content : Str)
    (hwalk : env.walkErr = false)
    (hchoose : chooseDir (candidateDirs env (selectorParts modelFull).1) = some modelDir)
    (htag : resolveTag env modelDir (selectorParts modelFull).2 = TagResult.resolved tag)
    (hstat1 : env.statOk modelDir = true)
    (hstat2 : env.statOk (pathJoin modelDir tag) = true)
    (hmk : env.mkdirOk (manifestDestDir outDir
        (replaceAllChar (trimPre modelDir (libraryRoot base)) '/' ':')) = true)
    (hcopy : env.copyOk (pathJoin modelDir tag)
        (manifestDestOf base outDir modelDir tag) = true)
    (hread : env.readFile (pathJoin modelDir tag) = some content)
    (hnone : findAllSha256 content = [])
    (a : AppEnv) (abase am bytes : Str)
    (hastat : a.statOk (appManifestPath abase am) = true)
    (haread : a.readFile (appManifestPath abase am) = some bytes)
    (habad : a.unmarshal bytes = none)
    (a2 : AppEnv) (abase2 am2 bytes2 : Str) (fields2 : List (Str × Jval))
    (hastat2 : a2.statOk (appManifestPath abase2 am2) = true)
    (haread2 : a2.readFile (appManifestPath abase2 am2) = some bytes2)
    (hum2 : a2.unmarshal bytes2 = some fields2)
    (hlay2 : lookupField fields2 (str "layers") = none) :
    ((processModel env base outDir modelFull).result = PerModelResult.skippedNoBlobs
      ∧ ∀ (rest : List Str) (rs : List ModelExec),
          runModels env base outDir rest = some rs →
          runModels env base outDir (modelFull :: rest)
            = some (processModel env base outDir modelFull :: rs))
    ∧ (appProcessModel a abase am = AppModelOutcome.fatalExit
      ∧ ∀ rest : List Str, appRunModels a abase (am :: rest) = none)
    ∧ (appProcessModel a2 abase2 am2 = AppModelOutcome.panicked
      ∧ ∀ rest : List Str, appRunModels a2 abase2 (am2 :: rest) = none) := by
  have hpm : (processModel env base outDir modelFull).result
      = PerModelResult.skippedNoBlobs := by
    simp only [manifestDestOf] at hcopy
    simp [processModel, hwalk, hchoose, htag, hstat1, hstat2, hmk, hcopy, hread, hnone]
  have happ : appProcessModel a abase am = AppModelOutcome.fatalExit := by
    simp [appProcessModel, hastat, haread, habad]
  have happ2 : appProcessModel a2 abase2 am2 = AppModelOutcome.panicked := by
    simp [appProcessModel, hastat2, haread2, hum2, hlay2]
  refine ⟨⟨hpm, ?_⟩, ⟨happ, ?_⟩, ⟨happ2, ?_⟩⟩
  · intro rest rs hrs
    simp [runModels, hpm, hrs]
  · intro rest
    simp [appRunModels, happ]
  · intro rest
    simp [appRunModels, happ2]

/-- App environment for the `layers`-panic half of the C4 witness: the
manifest unmarshals to an object with no `layers` field. -/
def appEnvC4b : AppEnv :=
  { statOk := fun _ => true
    readFile := fun _ => some (str "an object without layers")
    unmarshal := fun _ => some []
    tarOk := true }

/-- Main-pipeline environment for the C4 witness: the manifest copies
and reads fine but contains no digest references. -/
def envC4main : Env :=
  { libDirs := [str "lib/demo"]
    walkErr := false
    readDir := fun _ => some [str "latest"]
    statOk := fun _ => true
    readFile := fun _ => some (str "zero refs")
    copyOk := fun _ _ => true
    mkdirOk := fun _ => true }

theorem claim_C4_witness :
    (findAllSha256 (str "zero refs") = []
      ∧ (appEnvC4.unmarshal (str "plainly not json")).isNone = true
      ∧ lookupField [] (str "layers") = none)
    ∧ (((processModel envC4main (str "b") (str "o") (str "demo")).result
          = PerModelResult.skippedNoBlobs
        ∧ ∀ (rest : List Str) (rs : List ModelExec),
            runModels envC4main (str "b") (str "o") rest = some rs →
            runModels envC4main (str "b") (str "o") (str "demo" :: rest)
              = some (processModel envC4main (str "b") (str "o") (str "demo") :: rs))
      ∧ (appProcessModel appEnvC4 (str "b") (str "m1") = AppModelOutcome.fatalExit
        ∧ ∀ rest : List Str, appRunModels appEnvC4 (str "b") (str "m1" :: rest) = none)
      ∧ (appProcessModel appEnvC4b (str "b") (str "m2") = AppModelOutcome.panicked
        ∧ ∀ rest : List Str, appRunModels appEnvC4b (str "b") (str "m2" :: rest) = none)) :=
  ⟨⟨by decide, rfl, rfl⟩,
    claim_C4_amended envC4main (str "b") (str "o") (str "demo") (str "lib/demo")
      (str "latest") (str "zero refs")
      (by decide) (by decide) (by decide) (by decide) (by decide) (by decide) (by decide)
      (by decide) (by decide)
      appEnvC4 (str "b") (str "m1") (str "plainly not json") (by decide) rfl rfl
      appEnvC4b (str "b") (str "m2") (str "an object without layers") [] (by decide) rfl rfl
      rfl⟩

theorem runModels_isSome (env : Env) (base outDir : Str) (models : List Str)
    (h : ∀ m ∈ models, (processModel env base outDir m).result
        ≠ PerModelResult.fatalExit) :
    ∃ rs, runModels env base outDir models = some rs := by
  induction models with
  | nil => exact ⟨[], rfl⟩
  | cons m rest ih =>
    obtain ⟨rs, hrs⟩ := ih (fun x hx => h x (List.mem_cons_of_mem m hx))
    refine ⟨processModel env base outDir m :: rs, ?_⟩
    simp [runModels, h m (List.mem_cons_self m rest), hrs]

/-- Environment for the C3 counterexample: one model directory exists,
but the requested selector matches nothing. -/
def envC3 : Env :=
  { libDirs := [str "lib/demo"]
    walkErr := false
    readDir := fun _ => some [str "latest"]
    statOk := fun _ => true
    readFile := fun _ => none
    copyOk := fun _ _ => true
    mkdirOk := fun _ => true }

/-- Whole-run environment for the C3 counterexample: all preliminary
checks and the final `tar` succeed. -/
def genvC3 : GEnv :=
  { env := envC3
    statManifestsDir := true
    statBlobsDir := true
    mkdirManifests := true
    mkdirBlobs := true
    listModels := none
    tarOk := true }

/-- Claim C3 counterexample: The claim says the exit status is non-zero
when the selector list resolves to zero exportable models; but when the
selector `nosuch` matches no directory, `main` only prints an error and
continues (`main.go:238-246`), packages the empty destination tree, and
exits 0. -/
theorem claim_C3_counterexample :
    candidateDirs genvC3.env (selectorParts (str "nosuch")).1 = []
    ∧ (processModel genvC3.env (str "b") (str "o") (str "nosuch")).result
        = PerModelResult.skippedNoMatch
    ∧ (mainRun genvC3 (str "b") (str "o") [str "nosuch"]).1 = ExitCode.ok := by
  refine ⟨by decide, by decide, by decide⟩

/-- Claim C3, amended: The exit status is 0 whenever the preliminary
directory checks, destination creation, every per-model step short of
`errorExit`, and the final archive step succeed — including when the
selector list resolves to zero exportable models, which produces only a
warning; the exit status is non-zero exactly on the fatal errors
(`errorExit`), e.g. a missing source manifests directory. -/
theorem claim_C3_amended (g : GEnv) (base outDir : Str) (args : List Str)
    (h1 : g.statManifestsDir = true) (h2 : g.statBlobsDir = true)
    (h3 : g.mkdirManifests = true) (h4 : g.mkdirBlobs = true)
    (h5 : g.tarOk = true) (hargs : args ≠ [])
    (hnf : ∀ m ∈ args, (processModel g.env base outDir m).result
        ≠ PerModelResult.fatalExit) :
    (mainRun g base outDir args).1 = ExitCode.ok
    ∧ ∀ g2 : GEnv, g2.statManifestsDir = false →
        (mainRun g2 base outDir args).1 = ExitCode.err := by
  constructor
  · obtain ⟨rs, hrs⟩ := runModels_isSome g.env base outDir args hnf
    simp [mainRun, h1, h2, h3, h4, h5, hrs,
      List.isEmpty_eq_false_iff_exists_mem.mpr
        (List.exists_mem_of_ne_nil args hargs)]
  · intro g2 hg2
    simp [mainRun, hg2]

/-- Successful-run environment witnessing `claim_C3_amended`: one model
with one manifest and one blob, everything succeeding. -/
def envC3ok : Env :=
  { libDirs := [str "lib/demo"]
    walkErr := false
    readDir := fun _ => some [str "latest"]
    statOk := fun _ => true
    readFile := fun _ => some (str "sha256:0a1")
    copyOk := fun _ _ => true
    mkdirOk := fun _ => true }

/-- Whole-run environment witnessing `claim_C3_amended`. -/
def genvC3ok : GEnv :=
  { env := envC3ok
    statManifestsDir := true
    statBlobsDir := true
    mkdirManifests := true
    mkdirBlobs := true
    listModels := none
    tarOk := true }

theorem claim_C3_witness :
    ((processModel genvC3ok.env (str "b") (str "o") (str "demo")).result
        = PerModelResult.finished 1 0)
    ∧ ((mainRun genvC3ok (str "b") (str "o") [str "demo"]).1 = ExitCode.ok
      ∧ ∀ g2 : GEnv, g2.statManifestsDir = false →
          (mainRun g2 (str "b") (str "o") [str "demo"]).1 = ExitCode.err) :=
  ⟨by decide,
    claim_C3_amended genvC3ok (str "b") (str "o") [str "demo"]
      rfl rfl rfl rfl rfl (by decide) (by decide)⟩

/-- The cumulative destination-state effect of the blob loop: each blob
whose source is present overwrites its destination path. -/
def writeBlobs (srcFS : Str → Option Str) (base outDir : Str)
    (destFS : Str → Option Str) : List Str → (Str → Option Str)
  | [] => destFS
  | b :: bs =>
    match srcFS (blobSrcPath base b) with
    | some content =>
      writeBlobs srcFS base outDir (updateFS destFS (blobDestPath outDir b) content) bs
    | none => writeBlobs srcFS base outDir destFS bs

theorem execBlobsFS_spec (srcFS : Str → Option Str) (base outDir : Str)
    (blobs : List Str) (d : Str → Option Str) (c f : Nat)
    (hall : ∀ b ∈ blobs, (srcFS (blobSrcPath base b)).isSome = true) :
    blobs.foldl (copyStepFS srcFS base outDir) (d, c, f)
      = (writeBlobs srcFS base outDir d blobs, c + blobs.length, f) := by
  induction blobs generalizing d c f with
  | nil => simp [writeBlobs]
  | cons b bs ih =>
    have hb := hall b (List.mem_cons_self b bs)
    cases hsrc : srcFS (blobSrcPath base b) with
    | none =>
      rw [hsrc] at hb
      simp at hb
    | some content =>
      simp only [List.foldl_cons, copyStepFS, hsrc]
      rw [ih _ _ _ (fun x hx => hall x (List.mem_cons_of_mem b hx))]
      simp only [writeBlobs, hsrc, List.length_cons]
      have hn : c + 1 + bs.length = c + (bs.length + 1) := by omega
      rw [hn]

theorem writeBlobs_untouched (srcFS : Str → Option Str) (base outDir : Str)
    (bs : List Str) (d : Str → Option Str) (p : Str)
    (hp : p ∉ bs.map (blobDestPath outDir)) :
    writeBlobs srcFS base outDir d bs p = d p := by
  induction bs generalizing d with
  | nil => rfl
  | cons b bs ih =>
    have hsplit : ¬ (p = blobDestPath outDir b ∨ p ∈ bs.map (blobDestPath outDir)) := by
      simpa using hp
    have hpb : p ≠ blobDestPath outDir b := fun he => hsplit (Or.inl he)
    have hpbs : p ∉ bs.map (blobDestPath outDir) := fun hm => hsplit (Or.inr hm)
    cases hsrc : srcFS (blobSrcPath base b) with
    | none => simp [writeBlobs, hsrc, ih _ hpbs]
    | some content =>
      simp only [writeBlobs, hsrc]
      rw [ih _ hpbs]
      simp [updateFS, hpb]

theorem writeBlobs_touched (srcFS : Str → Option Str) (base outDir : Str)
    (bs : List Str) (p : Str)
    (hall : ∀ b ∈ bs, (srcFS (blobSrcPath base b)).isSome = true)
    (hp : p ∈ bs.map (blobDestPath outDir)) (d d' : Str → Option Str) :
    writeBlobs srcFS base outDir d bs p = writeBlobs srcFS base outDir d' bs p := by
  induction bs generalizing d d' with
  | nil => simp at hp
  | cons b bs ih =>
    have hb := hall b (List.mem_cons_self b bs)
    cases hsrc : srcFS (blobSrcPath base b) with
    | none =>
      rw [hsrc] at hb
      simp at hb
    | some content =>
      simp only [writeBlobs, hsrc]
      by_cases hpbs : p ∈ bs.map (blobDestPath outDir)
      · exact ih (fun x hx => hall x (List.mem_cons_of_mem b hx)) hpbs _ _
      · have hpb : p = blobDestPath outDir b := by
          have : p = blobDestPath outDir b ∨ p ∈ bs.map (blobDestPath outDir) := by
            simpa using hp
          exact this.resolve_right hpbs
        rw [writeBlobs_untouched srcFS base outDir bs _ p hpbs,
          writeBlobs_untouched srcFS base outDir bs _ p hpbs]
        simp [updateFS, hpb]

/-- Claim C8: Executing the blob-copy loop over a source tree in which
every planned blob exists and is readable copies all of them
(`copiedCount = N`, `failedCount = 0`); running it a second time against
the same source tree yields the same counts and leaves the destination
contents extensionally identical — re-copying an already-copied blob
safely overwrites it with the same content. -/
theorem claim_C8 (srcFS destFS : Str → Option Str) (base outDir : Str)
    (blobs : List Str)
    (hall : ∀ b ∈ blobs, (srcFS (blobSrcPath base b)).isSome = true) :
    ((execBlobsFS srcFS destFS base outDir blobs).2.1 = blobs.length
      ∧ (execBlobsFS srcFS destFS base outDir blobs).2.2 = 0)
    ∧ ((execBlobsFS srcFS (execBlobsFS srcFS destFS base outDir blobs).1
          base outDir blobs).2.1 = blobs.length
      ∧ (execBlobsFS srcFS (execBlobsFS srcFS destFS base outDir blobs).1
          base outDir blobs).2.2 = 0)
    ∧ ∀ p, (execBlobsFS srcFS (execBlobsFS srcFS destFS base outDir blobs).1
          base outDir blobs).1 p
        = (execBlobsFS srcFS destFS base outDir blobs).1 p := by
  have key : ∀ d : Str → Option Str, execBlobsFS srcFS d base outDir blobs
      = (writeBlobs srcFS base outDir d blobs, blobs.length, 0) := by
    intro d
    unfold execBlobsFS
    rw [execBlobsFS_spec srcFS base outDir blobs d 0 0 hall]
    simp
  rw [key destFS]
  dsimp only
  rw [key (writeBlobs srcFS base outDir destFS blobs)]
  dsimp only
  refine ⟨⟨rfl, rfl⟩, ⟨rfl, rfl⟩, ?_⟩
  intro p
  by_cases hp : p ∈ blobs.map (blobDestPath outDir)
  · exact writeBlobs_touched srcFS base outDir blobs p hall hp _ _
  · exact writeBlobs_untouched srcFS base outDir blobs _ p hp

theorem claim_C8_witness :
    (∀ b ∈ [str "aa", str "bb"],
        ((fun _ : Str => some (str "content")) (blobSrcPath (str "b") b)).isSome = true)
    ∧ (((execBlobsFS (fun _ => some (str "content")) (fun _ => none)
          (str "b") (str "o") [str "aa", str "bb"]).2.1 = ([str "aa", str "bb"] : List Str).length
        ∧ (execBlobsFS (fun _ => some (str "content")) (fun _ => none)
          (str "b") (str "o") [str "aa", str "bb"]).2.2 = 0)
      ∧ ((execBlobsFS (fun _ => some (str "content"))
            (execBlobsFS (fun _ => some (str "content")) (fun _ => none)
              (str "b") (str "o") [str "aa", str "bb"]).1
            (str "b") (str "o") [str "aa", str "bb"]).2.1
            = ([str "aa", str "bb"] : List Str).length
        ∧ (execBlobsFS (fun _ => some (str "content"))
            (execBlobsFS (fun _ => some (str "content")) (fun _ => none)
              (str "b") (str "o") [str "aa", str "bb"]).1
            (str "b") (str "o") [str "aa", str "bb"]).2.2 = 0)
      ∧ ∀ p, (execBlobsFS (fun _ => some (str "content"))
            (execBlobsFS (fun _ => some (str "content")) (fun _ => none)
              (str "b") (str "o") [str "aa", str "bb"]).1
            (str "b") (str "o") [str "aa", str "bb"]).1 p
          = (execBlobsFS (fun _ => some (str "content")) (fun _ => none)
            (str "b") (str "o") [str "aa", str "bb"]).1 p) :=
  ⟨by decide,
    claim_C8 (fun _ => some (str "content")) (fun _ => none) (str "b") (str "o")
      [str "aa", str "bb"] (by decide)⟩

end GollamaExport
